import Mathlib

/-!
Verification of the Neo4j knowledge-graph pipeline
(`src/knowledge_graph/graph.py`, `src/utils/neo4j-driver.py`)
against its natural-language specification.

The Python code is shallowly embedded: module-level mutable state becomes
explicit state passing, exceptions become `Except`/`Option` results, and
external collaborators (file loaders, the LLM transformer, the langchain
text splitter and graph store, the pyvis network) are either abstracted as
function parameters or modelled from their documented behaviour.
-/

namespace KG

/-! ## Neo4j driver singleton (`src/utils/neo4j-driver.py`)

The class-level mutable state of `Neo4jDriver` is the pair
(`_instance`, together with the `driver` field of the instance).  We also count how many
times `GraphDatabase.driver(...)` is called, i.e. how many underlying
connections are ever constructed. -/

/-- Class-level state of `Neo4jDriver`.
`instExists` models `Neo4jDriver._instance is not None`;
`driver` models the `self.driver` field of the singleton instance
(`some k` is a live connection handle, `none` is Python `None`);
`constructions` counts calls to `GraphDatabase.driver(...)`. -/
structure DriverState where
  instExists : Bool
  driver : Option Nat
  constructions : Nat
deriving DecidableEq, Repr

/-- The state at Python module import time: no instance, no connection. -/
def initialDriverState : DriverState :=
  { instExists := false, driver := none, constructions := 0 }

/-- `Neo4jDriver.__init__`: raises `Exception("This class is a singleton!")`
when `_instance` is already set, otherwise constructs the connection via
`GraphDatabase.driver(...)` and installs `self` as `_instance`.
Returns the class state after the call, paired with the raised exception
message, if any. -/
def Neo4jDriver_init (s : DriverState) : DriverState × Option String :=
  if s.instExists then (s, some "This class is a singleton!")
  else ({ instExists := true, driver := some s.constructions,
          constructions := s.constructions + 1 }, none)

/-- `Neo4jDriver.get_instance`: constructs the singleton on first use,
returns the (class) state afterwards. -/
def get_instance (s : DriverState) : DriverState :=
  if s.instExists then s else (Neo4jDriver_init s).1

/-- `Neo4jDriver.close`: `if self.driver: self.driver.close(); self.driver = None`.
With no live driver the call is a no-op. -/
def Neo4jDriver_close (s : DriverState) : DriverState :=
  match s.driver with
  | some _ => { s with driver := none }
  | none => s

/-- `get_neo4j_driver()`: `Neo4jDriver.get_instance().get_driver()`.
Returns the state after the call and the returned driver handle. -/
def get_neo4j_driver (s : DriverState) : DriverState × Option Nat :=
  let s1 := get_instance s
  (s1, s1.driver)

/-- `close_neo4j_driver()`: `Neo4jDriver.get_instance().close()`. -/
def close_neo4j_driver (s : DriverState) : DriverState :=
  Neo4jDriver_close (get_instance s)

/-- One observable operation on the module: a `get_neo4j_driver()` call or a
`close_neo4j_driver()` call. -/
inductive DriverOp where
  | get
  | close
deriving DecidableEq, Repr

/-- Run a sequence of driver operations from the module-import state. -/
def runDriverOps (ops : List DriverOp) : DriverState :=
  ops.foldl (fun s op =>
    match op with
    | .get => (get_neo4j_driver s).1
    | .close => close_neo4j_driver s) initialDriverState

/-- Invariant used for the singleton-count proof. -/
def driverInv (s : DriverState) : Prop :=
  s.constructions ≤ 1 ∧ (s.instExists = true ∨ s.constructions = 0)

theorem get_instance_preserves_inv {s : DriverState} (h : driverInv s) :
    driverInv (get_instance s) := by
  obtain ⟨h1, h2⟩ := h
  unfold get_instance Neo4jDriver_init
  by_cases hi : s.instExists
  · simp [hi]; exact ⟨h1, Or.inl hi⟩
  · simp [hi]
    have h0 : s.constructions = 0 := by
      rcases h2 with h2 | h2
      · exact absurd h2 hi
      · exact h2
    exact ⟨by simp [h0], Or.inl rfl⟩

theorem close_preserves_inv {s : DriverState} (h : driverInv s) :
    driverInv (Neo4jDriver_close s) := by
  obtain ⟨h1, h2⟩ := h
  unfold Neo4jDriver_close
  cases s.driver <;> exact ⟨h1, h2⟩

theorem runDriverOps_inv (ops : List DriverOp) : driverInv (runDriverOps ops) := by
  suffices h : ∀ s, driverInv s →
      driverInv (ops.foldl (fun s op =>
        match op with
        | .get => (get_neo4j_driver s).1
        | .close => close_neo4j_driver s) s) by
    exact h initialDriverState ⟨by simp [initialDriverState], Or.inr rfl⟩
  induction ops with
  | nil => intro s hs; exact hs
  | cons op rest ih =>
    intro s hs
    cases op with
    | get => exact ih _ (get_instance_preserves_inv hs)
    | close => exact ih _ (close_preserves_inv (get_instance_preserves_inv hs))

theorem get_instance_idem (s : DriverState) :
    get_instance (get_instance s) = get_instance s := by
  unfold get_instance Neo4jDriver_init
  by_cases hi : s.instExists <;> simp [hi]

/-- Claim C8: across every sequence of `get_neo4j_driver` / `close_neo4j_driver`
calls from process start, at most one underlying driver connection is ever
constructed; the connection is created lazily (none at import, exactly one after
the first `get`), a second `get` reuses the install without reconstructing, and
releasing the driver is idempotent: a second `close_neo4j_driver` is a no-op. -/
theorem c8_driver_singleton_lifecycle :
    (∀ ops : List DriverOp, (runDriverOps ops).constructions ≤ 1) ∧
    (runDriverOps []).constructions = 0 ∧
    (runDriverOps [.get]).constructions = 1 ∧
    (∀ s : DriverState, get_instance (get_instance s) = get_instance s) ∧
    (∀ s : DriverState,
      close_neo4j_driver (close_neo4j_driver s) = close_neo4j_driver s) := by
  refine ⟨fun ops => (runDriverOps_inv ops).1, by decide, by decide,
    get_instance_idem, fun s => ?_⟩
  unfold close_neo4j_driver
  have h1 : get_instance (Neo4jDriver_close (get_instance s))
      = Neo4jDriver_close (get_instance s) := by
    unfold get_instance Neo4jDriver_init Neo4jDriver_close
    by_cases hi : s.instExists <;> simp [hi] <;> cases hd : s.driver <;> simp [hd, hi]
  rw [h1]
  unfold Neo4jDriver_close
  cases hd : (get_instance s).driver <;> simp [hd]

/-- Claim C9: calling the `Neo4jDriver` constructor while the singleton already
exists raises `Exception("This class is a singleton!")` and leaves the class
state (the existing instance and its driver) unchanged. -/
theorem c9_constructor_singleton_guard (s : DriverState)
    (h : s.instExists = true) :
    Neo4jDriver_init s = (s, some "This class is a singleton!") := by
  unfold Neo4jDriver_init
  simp [h]

theorem c9_witness :
    ({ instExists := true, driver := some 0, constructions := 1 }
        : DriverState).instExists = true ∧
      Neo4jDriver_init { instExists := true, driver := some 0, constructions := 1 }
        = ({ instExists := true, driver := some 0, constructions := 1 },
           some "This class is a singleton!") :=
  ⟨rfl, c9_constructor_singleton_guard _ rfl⟩

/-- Iterate `get_neo4j_driver` on the state `n` times. -/
def getIter : Nat → DriverState → DriverState
  | 0, s => s
  | n + 1, s => getIter n (get_neo4j_driver s).1

/-- Claim C10: once `close_neo4j_driver` has run, every later
`get_neo4j_driver` call returns `None`: close clears the `driver` field but
leaves the singleton installed, the state is a fixed point of further `get`
calls, and no new connection is ever constructed in the same process. -/
theorem c10_closed_driver_stays_none (s : DriverState) (n : Nat) :
    (get_neo4j_driver (getIter n (close_neo4j_driver s))).2 = none ∧
    getIter n (close_neo4j_driver s) = close_neo4j_driver s := by
  have hfix : (get_neo4j_driver (close_neo4j_driver s)).1 = close_neo4j_driver s := by
    unfold get_neo4j_driver close_neo4j_driver get_instance Neo4jDriver_init
      Neo4jDriver_close
    by_cases hi : s.instExists <;> simp [hi] <;> cases hd : s.driver <;> simp [hd, hi]
  have hiter : ∀ m : Nat, getIter m (close_neo4j_driver s) = close_neo4j_driver s := by
    intro m
    induction m with
    | zero => rfl
    | succ k ih =>
      show getIter k (get_neo4j_driver (close_neo4j_driver s)).1 = _
      rw [hfix]; exact ih
  refine ⟨?_, hiter n⟩
  rw [hiter n]
  have hnone : (close_neo4j_driver s).driver = none := by
    unfold close_neo4j_driver Neo4jDriver_close
    cases hd : (get_instance s).driver <;> simp [hd]
  unfold get_neo4j_driver
  rw [show get_instance (close_neo4j_driver s) = close_neo4j_driver s from ?_]
  · exact hnone
  · unfold get_instance
    have : (close_neo4j_driver s).instExists = true := by
      unfold close_neo4j_driver Neo4jDriver_close get_instance Neo4jDriver_init
      by_cases hi : s.instExists <;> simp [hi] <;> cases hd : s.driver <;> simp [hd, hi]
    simp [this]

/-! ## Python exceptions and raw documents -/

/-- The Python exceptions observable in `graph.py`: `ValueError` (the only kind
caught by `create_graph`), `IOError`/`OSError` (filesystem), the
`ConfigurationError` of the chunking configuration contract, `KeyError`
(subscript on a missing node property), and every other exception kind. -/
inductive PyExc where
  | valueError (msg : String)
  | ioError (msg : String)
  | configurationError (msg : String)
  | keyError (key : String)
  | otherError (msg : String)
deriving DecidableEq, Repr

/-- Does `except ValueError` catch this exception? -/
def isValueError : PyExc → Bool
  | .valueError _ => true
  | _ => false

instance {E A : Type} [DecidableEq E] [DecidableEq A] :
    DecidableEq (Except E A) := fun x y =>
  match x, y with
  | .ok a, .ok b => decidable_of_iff (a = b) (by simp)
  | .error e, .error f => decidable_of_iff (e = f) (by simp)
  | .ok _, .error _ => isFalse (fun hc => Except.noConfusion hc)
  | .error _, .ok _ => isFalse (fun hc => Except.noConfusion hc)

/-- Python `str.endswith`, as a suffix check on the character list (the
built-in `String.endsWith` does not reduce in the kernel). -/
def strEndsWith (s suffix : String) : Bool :=
  List.isSuffixOf suffix.data s.data

/-- A raw document record as produced by a format-specific loader:
extracted text plus source metadata (summarised as the source file name). -/
structure RawDocument where
  text : String
  source : String
deriving DecidableEq, Repr

/-! ## Document loader (`load_document`) -/

/-- Extension dispatch of `load_document`: only `.pdf` and `.docx` entries are
handed to a loader. -/
def supportedFile (filename : String) : Bool :=
  strEndsWith filename ".pdf" || strEndsWith filename ".docx"

/-- The loader loop of `load_document` over the directory listing: `.pdf`
entries go to the PDF loader, `.docx` entries to the DOCX loader, everything
else is `continue`d over; `loader.load()` may raise, and nothing catches it. -/
def loadFiles (pdfLoad docxLoad : String → Except PyExc (List RawDocument)) :
    List String → Except PyExc (List RawDocument)
  | [] => .ok []
  | f :: fs =>
    if strEndsWith f ".pdf" then
      match pdfLoad f with
      | .ok ds => (loadFiles pdfLoad docxLoad fs).map (fun rest => ds ++ rest)
      | .error e => .error e
    else if strEndsWith f ".docx" then
      match docxLoad f with
      | .ok ds => (loadFiles pdfLoad docxLoad fs).map (fun rest => ds ++ rest)
      | .error e => .error e
    else loadFiles pdfLoad docxLoad fs

theorem loadFiles_cons (p d : String → Except PyExc (List RawDocument))
    (f : String) (fs : List String) :
    loadFiles p d (f :: fs)
      = if strEndsWith f ".pdf" then
          match p f with
          | .ok ds => (loadFiles p d fs).map (fun rest => ds ++ rest)
          | .error e => .error e
        else if strEndsWith f ".docx" then
          match d f with
          | .ok ds => (loadFiles p d fs).map (fun rest => ds ++ rest)
          | .error e => .error e
        else loadFiles p d fs := rfl

/-- `load_document`: lists the `downloads` directory and runs the loader loop.
`listing = none` models a missing directory, on which `os.listdir` raises
`FileNotFoundError` (an `OSError`/`IOError`). -/
def load_document (pdfLoad docxLoad : String → Except PyExc (List RawDocument))
    (listing : Option (List String)) : Except PyExc (List RawDocument) :=
  match listing with
  | none => .error (.ioError "FileNotFoundError: downloads")
  | some files => loadFiles pdfLoad docxLoad files

/-- Claim C4: the loader produces documents only for entries ending in `.pdf`
or `.docx`; an entry with any other extension is skipped without being handed
to any loader, so it contributes neither documents nor errors — the load of a
listing equals the load of its supported-entry sublist. -/
theorem c4_loader_extension_dispatch
    (pdfLoad docxLoad : String → Except PyExc (List RawDocument))
    (files : List String) :
    load_document pdfLoad docxLoad (some files)
      = load_document pdfLoad docxLoad (some (files.filter supportedFile)) := by
  show loadFiles pdfLoad docxLoad files
      = loadFiles pdfLoad docxLoad (files.filter supportedFile)
  induction files with
  | nil => rfl
  | cons f fs ih =>
    rw [List.filter_cons]
    cases hp : strEndsWith f ".pdf" with
    | true =>
      have hs : supportedFile f = true := by simp [supportedFile, hp]
      simp only [hs, ite_true, loadFiles_cons, hp]
      cases pdfLoad f with
      | ok ds => rw [ih]
      | error e => rfl
    | false =>
      cases hd : strEndsWith f ".docx" with
      | true =>
        have hs : supportedFile f = true := by simp [supportedFile, hd]
        simp only [hs, ite_true, loadFiles_cons, hp, hd, Bool.false_eq_true, ite_false]
        cases docxLoad f with
        | ok ds => rw [ih]
        | error e => rfl
      | false =>
        have hs : supportedFile f = false := by simp [supportedFile, hp, hd]
        simp only [hs, Bool.false_eq_true, ite_false, loadFiles_cons, hp, hd]
        exact ih

/-- A PDF loader on an unreadable file: `loader.load()` raises. -/
def unreadablePdfLoad : String → Except PyExc (List RawDocument) :=
  fun f => .error (.otherError ("cannot open " ++ f))

/-- A DOCX loader that succeeds with no content. -/
def emptyDocxLoad : String → Except PyExc (List RawDocument) :=
  fun _ => .ok []

/-- Claim C5 counterexample: a single unreadable `.pdf` file makes
`load_document` fail — the exception of the loader propagates out of the loop, so
the claim that the loader "does not fail because an individual file is
unreadable" is false on the code. -/
theorem c5_counterexample :
    load_document unreadablePdfLoad emptyDocxLoad (some ["broken.pdf"])
      = .error (.otherError "cannot open broken.pdf") := rfl

/-- Claim C5 (amended): `load_document` fails with an `IOError`
(`FileNotFoundError`) when the source directory does not exist; but an error
raised while loading an individual file is not caught — it propagates and
aborts the whole load. -/
theorem c5_loader_failure_modes
    (pdfLoad docxLoad : String → Except PyExc (List RawDocument)) :
    load_document pdfLoad docxLoad none
      = .error (.ioError "FileNotFoundError: downloads") ∧
    (∀ f fs e, strEndsWith f ".pdf" = true → pdfLoad f = .error e →
      load_document pdfLoad docxLoad (some (f :: fs)) = .error e) ∧
    (∀ f fs e, strEndsWith f ".pdf" = false → strEndsWith f ".docx" = true →
      docxLoad f = .error e →
      load_document pdfLoad docxLoad (some (f :: fs)) = .error e) := by
  refine ⟨rfl, ?_, ?_⟩
  · intro f fs e hf he
    show loadFiles pdfLoad docxLoad (f :: fs) = .error e
    simp only [loadFiles_cons, hf, ite_true, he]
  · intro f fs e hp hd he
    show loadFiles pdfLoad docxLoad (f :: fs) = .error e
    simp only [loadFiles_cons, hp, hd, ite_true, Bool.false_eq_true, ite_false, he]

theorem c5_witness :
    load_document unreadablePdfLoad emptyDocxLoad none
      = .error (.ioError "FileNotFoundError: downloads") ∧
    load_document unreadablePdfLoad emptyDocxLoad (some ["x.pdf"])
      = .error (.otherError "cannot open x.pdf") :=
  ⟨(c5_loader_failure_modes unreadablePdfLoad emptyDocxLoad).1,
   (c5_loader_failure_modes unreadablePdfLoad emptyDocxLoad).2.1
     "x.pdf" [] (.otherError "cannot open x.pdf") (by decide) rfl⟩

/-! ## Chunker (`chunk_documents`) -/

/-- A token-bounded chunk: a window of tokens plus inherited source metadata. -/
structure Chunk where
  tokens : List Nat
  source : String
deriving DecidableEq, Repr

/-- Modelled from the spec: the token windowing of the external langchain
`TokenTextSplitter` (not part of this repository) — consecutive windows of
`C` tokens, each subsequent window starting `C − O` tokens into the previous
one. The splitter is only run on configurations already validated to satisfy
`O < C`; the extra `C - O = 0` guard merely makes the recursion total. -/
def splitTokens (C O : Nat) (ts : List Nat) : List (List Nat) :=
  if ts.length ≤ C ∨ C - O = 0 then [ts]
  else ts.take C :: splitTokens C O (ts.drop (C - O))
termination_by ts.length
decreasing_by
  simp only [List.length_drop]
  omega

/-- Modelled from the spec: construction of the external langchain
`TokenTextSplitter` (not part of this repository) validates its configuration —
`overlapTokens < chunkSizeTokens` must hold or the process fails with
`ConfigurationError`. -/
def mkTokenTextSplitter (chunkSize chunkOverlap : Nat) :
    Except PyExc (Nat × Nat) :=
  if chunkOverlap < chunkSize then .ok (chunkSize, chunkOverlap)
  else .error (.configurationError "chunk overlap must be smaller than chunk size")

/-- Split every raw document into token windows, forwarding source metadata;
the tokenizer itself is an abstract deterministic function. -/
def split_documents (C O : Nat) (tokenize : String → List Nat)
    (raw : List RawDocument) : List Chunk :=
  raw.flatMap (fun d =>
    (splitTokens C O (tokenize d.text)).map (fun w => ⟨w, d.source⟩))

/-- `chunk_documents` with the chunk size and overlap abstracted as parameters
(the source fixes them to 1536 and 250). -/
def chunk_documents_with (C O : Nat) (tokenize : String → List Nat)
    (raw : List RawDocument) : Except PyExc (List Chunk) := do
  let cfg ← mkTokenTextSplitter C O
  .ok (split_documents cfg.1 cfg.2 tokenize raw)

/-- `chunk_documents`: builds a `TokenTextSplitter(chunk_size=1536,
chunk_overlap=250)` and splits the raw documents. -/
def chunk_documents (tokenize : String → List Nat)
    (raw : List RawDocument) : Except PyExc (List Chunk) :=
  chunk_documents_with 1536 250 tokenize raw

/-- Claim C6: for any configuration with overlap greater than or equal to the
chunk size, the chunking step fails with a `ConfigurationError` and produces no
chunks; the fixed configuration used by `chunk_documents` (1536, 250) satisfies
the validation and always produces chunks. -/
theorem c6_overlap_validation (C O : Nat) (tokenize : String → List Nat)
    (raw : List RawDocument) (h : C ≤ O) :
    chunk_documents_with C O tokenize raw
      = .error (.configurationError
          "chunk overlap must be smaller than chunk size") ∧
    (∀ raw2, ∃ chunks, chunk_documents tokenize raw2 = .ok chunks) := by
  constructor
  · unfold chunk_documents_with mkTokenTextSplitter
    rw [if_neg (Nat.not_lt.mpr h)]
    rfl
  · intro raw2
    exact ⟨split_documents 1536 250 tokenize raw2, rfl⟩

theorem c6_witness :
    (100 : Nat) ≤ 150 ∧
    chunk_documents_with 100 150 (fun _ => []) []
      = .error (.configurationError
          "chunk overlap must be smaller than chunk size") :=
  ⟨by decide,
   (c6_overlap_validation 100 150 (fun _ => []) [] (by decide)).1⟩

/-! ## Graph store (`graphstore`) -/

/-- A node of an extracted graph document: id plus entity-type label. -/
structure GNode where
  id : String
  nodeType : String
deriving DecidableEq, Repr

/-- A directed typed relationship of an extracted graph document. -/
structure GRel where
  sourceId : String
  targetId : String
  relType : String
deriving DecidableEq, Repr

/-- The unit of extraction output: the nodes and relationships produced from
one source chunk, plus that chunk. -/
structure GraphDocument where
  nodes : List GNode
  relationships : List GRel
  sourceChunk : Chunk
deriving DecidableEq, Repr

/-- The constant base label attached to every pipeline-extracted node when
`baseEntityLabel` is set. -/
def baseEntityLabelTag : String := "__Entity__"

/-- A node as persisted: the database labels attached to it and its
provenance link back to the source chunk, when stored. -/
structure StoredNode where
  node : GNode
  labels : List String
  sourceRef : Option Chunk
deriving DecidableEq, Repr

/-- A relationship as persisted, with its provenance link. -/
structure StoredRel where
  rel : GRel
  sourceRef : Option Chunk
deriving DecidableEq, Repr

/-- The durable contents written by one store call. -/
structure StoreState where
  nodes : List StoredNode
  rels : List StoredRel
deriving DecidableEq, Repr

/-- Modelled from the spec: `Neo4jGraph.add_graph_documents` is external
langchain code, not part of this repository. Per the spec, with
`baseEntityLabel` every produced node is tagged with the constant base label
(uniformly, regardless of entity type), and with `include_source` every stored
node and relationship is linked back to the source chunk of the graph document
that produced it. -/
def add_graph_documents (gds : List GraphDocument)
    (baseEntityLabel include_source : Bool) : StoreState :=
  { nodes := gds.flatMap (fun gd => gd.nodes.map (fun n =>
      { node := n
        labels :=
          if baseEntityLabel then [n.nodeType, baseEntityLabelTag] else [n.nodeType]
        sourceRef := if include_source then some gd.sourceChunk else none }))
    rels := gds.flatMap (fun gd => gd.relationships.map (fun r =>
      { rel := r
        sourceRef := if include_source then some gd.sourceChunk else none })) }

/-- `graphstore`: converts the chunks to graph documents through the (abstract,
fallible) LLM transformer, then stores them with `baseEntityLabel=True` and
`include_source=True`; returns the graph documents (the return
value of the function) paired with the store contents (the database side effect). -/
def graphstore (transformer : List Chunk → Except PyExc (List GraphDocument))
    (documents : List Chunk) :
    Except PyExc (List GraphDocument × StoreState) := do
  let gds ← transformer documents
  .ok (gds, add_graph_documents gds true true)

/-- Claim C3: every node persisted by `graphstore` carries the constant base
label marking it pipeline-extracted, and every stored node and relationship is
persisted with a provenance link to the source chunk of the graph document
that produced it. -/
theorem c3_store_base_label_and_provenance
    (transformer : List Chunk → Except PyExc (List GraphDocument))
    (documents : List Chunk) (gds : List GraphDocument) (st : StoreState)
    (h : graphstore transformer documents = .ok (gds, st)) :
    (∀ sn ∈ st.nodes, baseEntityLabelTag ∈ sn.labels ∧
      ∃ gd ∈ gds, sn.node ∈ gd.nodes ∧ sn.sourceRef = some gd.sourceChunk) ∧
    (∀ sr ∈ st.rels,
      ∃ gd ∈ gds, sr.rel ∈ gd.relationships ∧
        sr.sourceRef = some gd.sourceChunk) := by
  have hst : st = add_graph_documents gds true true := by
    unfold graphstore at h
    cases htr : transformer documents with
    | ok g =>
      rw [htr] at h
      cases h
      rfl
    | error e =>
      rw [htr] at h
      cases h
  subst hst
  constructor
  · intro sn hsn
    simp only [add_graph_documents, List.mem_flatMap, List.mem_map] at hsn
    obtain ⟨gd, hgd, n, hn, rfl⟩ := hsn
    exact ⟨by simp, gd, hgd, hn, rfl⟩
  · intro sr hsr
    simp only [add_graph_documents, List.mem_flatMap, List.mem_map] at hsr
    obtain ⟨gd, hgd, r, hr, rfl⟩ := hsr
    exact ⟨gd, hgd, hr, rfl⟩

/-- A one-chunk, one-node, one-relationship graph document used to witness the
store properties. -/
def sampleChunk : Chunk := ⟨[1, 2, 3], "doc.pdf"⟩

def sampleGraphDocument : GraphDocument :=
  { nodes := [⟨"alice", "Person"⟩]
    relationships := [⟨"alice", "acme", "WORKS_AT"⟩]
    sourceChunk := sampleChunk }

theorem c3_witness :
    graphstore (fun _ => .ok [sampleGraphDocument]) []
      = .ok ([sampleGraphDocument],
          add_graph_documents [sampleGraphDocument] true true) ∧
    ∀ sn ∈ (add_graph_documents [sampleGraphDocument] true true).nodes,
      baseEntityLabelTag ∈ sn.labels ∧
      ∃ gd ∈ [sampleGraphDocument], sn.node ∈ gd.nodes ∧
        sn.sourceRef = some gd.sourceChunk :=
  ⟨rfl,
   (c3_store_base_label_and_provenance (fun _ => .ok [sampleGraphDocument]) []
     [sampleGraphDocument] (add_graph_documents [sampleGraphDocument] true true)
     rfl).1⟩

/-! ## Pipeline orchestrator (`create_graph`) -/

theorem exceptBind_ok {A B : Type} (a : A) (f : A → Except PyExc B) :
    (Except.ok a >>= f : Except PyExc B) = f a := rfl

theorem exceptBind_error {A B : Type} (e : PyExc) (f : A → Except PyExc B) :
    ((Except.error e : Except PyExc A) >>= f) = .error e := rfl

/-- The external collaborators and filesystem state one pipeline run sees. -/
structure PipelineEnv where
  listing : Option (List String)
  pdfLoad : String → Except PyExc (List RawDocument)
  docxLoad : String → Except PyExc (List RawDocument)
  tokenize : String → List Nat
  transformer : List Chunk → Except PyExc (List GraphDocument)

/-- The `try` body of `create_graph`: load the documents, chunk them, store
the extracted graphs, then return the success string. -/
def pipelineBody (env : PipelineEnv) : Except PyExc String := do
  let raw ← load_document env.pdfLoad env.docxLoad env.listing
  let chunks ← chunk_documents env.tokenize raw
  let _ ← graphstore env.transformer chunks
  pure "graph is loaded"

/-- The handler of `create_graph`: `except ValueError as e:
raise ValueError(f"graph is not loaded: {e}")` — only `ValueError` is caught;
every other exception propagates unchanged. -/
def exceptValueErrorWrap (body : Except PyExc String) : Except PyExc String :=
  match body with
  | .ok s => .ok s
  | .error (.valueError m) => .error (.valueError ("graph is not loaded: " ++ m))
  | .error e => .error e

/-- `create_graph`: the `try` body under the `except ValueError` handler. -/
def create_graph (env : PipelineEnv) : Except PyExc String :=
  exceptValueErrorWrap (pipelineBody env)

/-- Python `str.startswith` on the character lists. -/
def strStartsWith (s p : String) : Bool :=
  s.data.take p.data.length == p.data

/-- The notion the claim has of a failure wrapped by the orchestrator, read off the
only wrapping in the code: re-raising as `ValueError("graph is not loaded: ...")`
(the code has no `PipelineError` type and records no failing stage). -/
def claimedPipelineWrap : PyExc → Bool
  | .valueError m => strStartsWith m "graph is not loaded: "
  | _ => false

/-- An environment whose source directory is missing: the loading stage raises
`IOError`, an exception kind the orchestrator handler does not catch. -/
def envDirMissing : PipelineEnv :=
  { listing := none
    pdfLoad := fun _ => .ok []
    docxLoad := fun _ => .ok []
    tokenize := fun _ => []
    transformer := fun _ => .ok [] }

/-- Claim C1 counterexample: when the loading stage fails with an `IOError`,
`create_graph` surfaces exactly that error — unwrapped, carrying no failing
stage — so the claim that every stage failure is wrapped before reaching the
caller is false on the code. -/
theorem c1_counterexample :
    create_graph envDirMissing
      = .error (.ioError "FileNotFoundError: downloads") ∧
    claimedPipelineWrap (.ioError "FileNotFoundError: downloads") = false :=
  ⟨rfl, rfl⟩

/-- Claim C1 (amended): `create_graph` returns the success value when every
stage succeeds; a `ValueError` raised by any stage is re-raised as
`ValueError` with the message prefixed `graph is not loaded: `; any other
stage failure propagates to the caller unchanged — not wrapped and carrying no
stage information; no automatic retry is performed (a stage failure is
surfaced immediately, never converted into a success). -/
theorem c1_orchestrator_wrap_behaviour (env : PipelineEnv) (e : PyExc)
    (m : String) (he : isValueError e = false) :
    (pipelineBody env = .error e →
      create_graph env = .error e ∧ claimedPipelineWrap e = false) ∧
    (pipelineBody env = .error (.valueError m) →
      create_graph env
        = .error (.valueError ("graph is not loaded: " ++ m))) ∧
    (∀ s, pipelineBody env = .ok s →
      s = "graph is loaded" ∧ create_graph env = .ok "graph is loaded") := by
  refine ⟨?_, ?_, ?_⟩
  · intro h
    unfold create_graph exceptValueErrorWrap
    rw [h]
    cases e with
    | valueError m2 => cases he
    | ioError m2 => exact ⟨rfl, rfl⟩
    | configurationError m2 => exact ⟨rfl, rfl⟩
    | keyError k => exact ⟨rfl, rfl⟩
    | otherError m2 => exact ⟨rfl, rfl⟩
  · intro h
    unfold create_graph exceptValueErrorWrap
    rw [h]
  · intro s h
    have hs : s = "graph is loaded" := by
      unfold pipelineBody at h
      cases hl : load_document env.pdfLoad env.docxLoad env.listing with
      | error e2 => rw [hl, exceptBind_error] at h; cases h
      | ok raw =>
        rw [hl, exceptBind_ok] at h
        cases hc : chunk_documents env.tokenize raw with
        | error e2 => rw [hc, exceptBind_error] at h; cases h
        | ok chunks =>
          rw [hc, exceptBind_ok] at h
          cases hg : graphstore env.transformer chunks with
          | error e2 => rw [hg, exceptBind_error] at h; cases h
          | ok g => rw [hg, exceptBind_ok] at h; cases h; rfl
    subst hs
    refine ⟨rfl, ?_⟩
    unfold create_graph exceptValueErrorWrap
    rw [h]

theorem c1_witness :
    create_graph envDirMissing
        = .error (.ioError "FileNotFoundError: downloads") ∧
      claimedPipelineWrap (.ioError "FileNotFoundError: downloads") = false :=
  (c1_orchestrator_wrap_behaviour envDirMissing
    (.ioError "FileNotFoundError: downloads") "" rfl).1 rfl

/-! ## Graph viewer (`showGraph`) -/

/-- A neo4j node as the viewer sees it: the driver-internal element identity
(`node.id` in the Python driver) and the property map (`node["k"]`,
`node.get("k")`). -/
structure NeoNode where
  elementId : Nat
  props : List (String × String)
deriving DecidableEq, Repr

/-- `node.get(key)`: the property value, or Python `None` when absent. -/
def NeoNode.get (n : NeoNode) (k : String) : Option String :=
  (n.props.find? (fun p => decide (p.1 = k))).map (fun p => p.2)

/-- `node[key]`: the property value; raises `KeyError` when absent. -/
def NeoNode.getItem (n : NeoNode) (k : String) : Except PyExc String :=
  match n.get k with
  | some v => .ok v
  | none => .error (.keyError k)

/-- Python truthiness of a `node.get(...)` result: `None` and the empty
string are falsy. -/
def truthy : Option String → Bool
  | none => false
  | some s => !(decide (s = ""))

/-- `source.get("name") or source.get("title") or source["id"]`: Python `or`
returns the first truthy operand, else the last operand. -/
def nodeLabel (n : NeoNode) : Except PyExc String :=
  if truthy (n.get "name") then .ok ((n.get "name").getD "")
  else if truthy (n.get "title") then .ok ((n.get "title").getD "")
  else n.getItem "id"

/-- Drop an empty-string property, as Python truthiness does. -/
def nonEmptyProp : Option String → Option String
  | some s => if s = "" then none else some s
  | none => none

/-- The fallback chain exactly as the spec words it: the `name` property if
non-empty, otherwise the `title` property if non-empty, otherwise the `id`
property. -/
def specFallbackLabel (n : NeoNode) : Option String :=
  match nonEmptyProp (n.get "name") with
  | some s => some s
  | none =>
    match nonEmptyProp (n.get "title") with
    | some s => some s
    | none => n.get "id"

/-- A node of the pyvis visualization: pyvis `n_id`, `label`, and `title`
(the hover title). -/
structure VisNode where
  id : Nat
  label : String
  hoverTitle : String
deriving DecidableEq, Repr

/-- An edge of the pyvis visualization: endpoints, `title` (hover) and
`label`. -/
structure VisEdge where
  source : Nat
  target : Nat
  hoverTitle : String
  label : String
deriving DecidableEq, Repr

/-- The pyvis `Network` being built. -/
structure Network where
  nodes : List VisNode
  edges : List VisEdge
deriving DecidableEq, Repr

/-- Modelled from the pyvis library: `Network.add_node` does not add a node
whose id is already present — the first-seen node wins. -/
def Network.add_node (net : Network) (i : Nat) (label hoverTitle : String) :
    Network :=
  if net.nodes.any (fun v => v.id == i) then net
  else { net with nodes := net.nodes ++ [⟨i, label, hoverTitle⟩] }

/-- Modelled from the pyvis library: `Network.add_edge` on a `directed=True`
network appends the edge (duplicates are only checked for undirected
networks); its endpoint-existence assertion always holds in `showGraph`,
which adds both endpoints immediately before. -/
def Network.add_edge (net : Network) (s t : Nat) (hoverTitle label : String) :
    Network :=
  { net with edges := net.edges ++ [⟨s, t, hoverTitle, label⟩] }

/-- One result row of the Cypher query: `record["s"]`, `record["t"]`, and the
relationship `record["r"]`, of which only `relation.type` is read. -/
structure Row where
  s : NeoNode
  t : NeoNode
  relType : String
deriving DecidableEq, Repr

/-- The body of the `for record in result` loop of `showGraph`: resolve both
labels, read both `id` properties, add the two nodes, then the edge. -/
def processRow (net : Network) (row : Row) : Except PyExc Network := do
  let sourceLabel ← nodeLabel row.s
  let targetLabel ← nodeLabel row.t
  let sourceId ← row.s.getItem "id"
  let targetId ← row.t.getItem "id"
  let net1 := net.add_node row.s.elementId sourceLabel sourceId
  let net2 := net1.add_node row.t.elementId targetLabel targetId
  pure (net2.add_edge row.s.elementId row.t.elementId row.relType row.relType)

/-- The row loop of `showGraph`, from an accumulated network. -/
def showGraphLoop (net : Network) : List Row → Except PyExc Network
  | [] => .ok net
  | row :: rows =>
    match processRow net row with
    | .ok net2 => showGraphLoop net2 rows
    | .error e => .error e

/-- `showGraph`: runs the query (whose result rows are the input here) and
builds the pyvis network; writing it to a temporary HTML file and opening the
browser are external output. -/
def showGraph (rows : List Row) : Except PyExc Network :=
  showGraphLoop { nodes := [], edges := [] } rows

/-- The label resolved by the code is the fallback chain of the spec, whenever the
`id` property is present. -/
theorem nodeLabel_spec (n : NeoNode) (i : String) (hid : n.get "id" = some i) :
    ∃ l, specFallbackLabel n = some l ∧ nodeLabel n = .ok l := by
  cases hn : n.get "name" with
  | some s =>
    by_cases hse : s = ""
    · subst hse
      cases ht : n.get "title" with
      | some t =>
        by_cases hte : t = ""
        · subst hte
          exact ⟨i, by simp [specFallbackLabel, nonEmptyProp, hn, ht, hid],
            by simp [nodeLabel, truthy, hn, ht, NeoNode.getItem, hid]⟩
        · exact ⟨t, by simp [specFallbackLabel, nonEmptyProp, hn, ht, hte],
            by simp [nodeLabel, truthy, hn, ht, hte]⟩
      | none =>
        exact ⟨i, by simp [specFallbackLabel, nonEmptyProp, hn, ht, hid],
          by simp [nodeLabel, truthy, hn, ht, NeoNode.getItem, hid]⟩
    · exact ⟨s, by simp [specFallbackLabel, nonEmptyProp, hn, hse],
        by simp [nodeLabel, truthy, hn, hse]⟩
  | none =>
    cases ht : n.get "title" with
    | some t =>
      by_cases hte : t = ""
      · subst hte
        exact ⟨i, by simp [specFallbackLabel, nonEmptyProp, hn, ht, hid],
          by simp [nodeLabel, truthy, hn, ht, NeoNode.getItem, hid]⟩
      · exact ⟨t, by simp [specFallbackLabel, nonEmptyProp, hn, ht, hte],
          by simp [nodeLabel, truthy, hn, ht, hte]⟩
    | none =>
      exact ⟨i, by simp [specFallbackLabel, nonEmptyProp, hn, ht, hid],
        by simp [nodeLabel, truthy, hn, ht, NeoNode.getItem, hid]⟩

/-- Claim C2: for every processed row, the display label of each node is resolved
by the fallback chain (`name` if non-empty, else `title` if non-empty, else
the `id` property), and the hover title of each node is always the `id` property,
regardless of which label was chosen. -/
theorem c2_viewer_label_fallback (net : Network) (row : Row) (si ti : String)
    (hs : row.s.get "id" = some si) (ht : row.t.get "id" = some ti) :
    ∃ ls lt, specFallbackLabel row.s = some ls ∧
      specFallbackLabel row.t = some lt ∧
      processRow net row = .ok
        (((net.add_node row.s.elementId ls si).add_node
            row.t.elementId lt ti).add_edge
          row.s.elementId row.t.elementId row.relType row.relType) := by
  obtain ⟨ls, hls, hnls⟩ := nodeLabel_spec row.s si hs
  obtain ⟨lt, hlt, hnlt⟩ := nodeLabel_spec row.t ti ht
  refine ⟨ls, lt, hls, hlt, ?_⟩
  have hgs : row.s.getItem "id" = .ok si := by simp [NeoNode.getItem, hs]
  have hgt : row.t.getItem "id" = .ok ti := by simp [NeoNode.getItem, ht]
  unfold processRow
  rw [hnls, exceptBind_ok, hnlt, exceptBind_ok, hgs, exceptBind_ok, hgt,
    exceptBind_ok]
  rfl

/-- The Alice/Acme example row of the spec: node 1 has `id="1"`,
`name="Alice"`; node 2 has `id="2"`, `title="Acme"`; the relationship type is
`WORKS_AT`. -/
def aliceAcmeRow : Row :=
  { s := ⟨1, [("id", "1"), ("name", "Alice")]⟩
    t := ⟨2, [("id", "2"), ("title", "Acme")]⟩
    relType := "WORKS_AT" }

theorem c2_witness :
    ∃ ls lt, specFallbackLabel aliceAcmeRow.s = some ls ∧
      specFallbackLabel aliceAcmeRow.t = some lt ∧
      processRow { nodes := [], edges := [] } aliceAcmeRow = .ok
        (((({ nodes := [], edges := [] } : Network).add_node
            aliceAcmeRow.s.elementId ls "1").add_node
              aliceAcmeRow.t.elementId lt "2").add_edge
          aliceAcmeRow.s.elementId aliceAcmeRow.t.elementId
          aliceAcmeRow.relType aliceAcmeRow.relType) :=
  c2_viewer_label_fallback { nodes := [], edges := [] } aliceAcmeRow "1" "2"
    (by decide) (by decide)

/-- The directed visual edge a row produces: row order, labeled (and
hover-titled) with the relationship type. -/
def edgeOf (r : Row) : VisEdge :=
  ⟨r.s.elementId, r.t.elementId, r.relType, r.relType⟩

/-- Insert a node identity unless already seen. -/
def insertSeen (acc : List Nat) (x : Nat) : List Nat :=
  if acc.any (fun y => y == x) then acc else acc ++ [x]

/-- First-seen-order deduplication of a list of node identities — the
spec wording "deduplicated node list (by node identity), first-seen order". -/
def firstSeen (l : List Nat) : List Nat :=
  l.foldl insertSeen []

/-- The node identities each row contributes, in encounter order. -/
def rowIds (r : Row) : List Nat :=
  [r.s.elementId, r.t.elementId]

theorem add_node_edges (net : Network) (i : Nat) (lb t : String) :
    (net.add_node i lb t).edges = net.edges := by
  unfold Network.add_node
  by_cases hc : net.nodes.any (fun v => v.id == i) <;> simp [hc]

theorem list_any_map {A B : Type} (f : A → B) (p : B → Bool) (l : List A) :
    (l.map f).any p = l.any (fun a => p (f a)) := by
  induction l with
  | nil => rfl
  | cons x xs ih => simp [ih]

theorem add_node_ids (net : Network) (i : Nat) (lb t : String) :
    (net.add_node i lb t).nodes.map (fun v => v.id)
      = insertSeen (net.nodes.map (fun v => v.id)) i := by
  unfold Network.add_node insertSeen
  rw [list_any_map]
  by_cases hc : net.nodes.any (fun v => v.id == i) <;> simp [hc]

theorem processRow_ok_effects {net mid : Network} {row : Row}
    (h : processRow net row = .ok mid) :
    mid.edges = net.edges ++ [edgeOf row] ∧
    mid.nodes.map (fun v => v.id)
      = insertSeen (insertSeen (net.nodes.map (fun v => v.id))
          row.s.elementId) row.t.elementId := by
  unfold processRow at h
  cases h1 : nodeLabel row.s with
  | error e => rw [h1, exceptBind_error] at h; cases h
  | ok ls =>
    rw [h1, exceptBind_ok] at h
    cases h2 : nodeLabel row.t with
    | error e => rw [h2, exceptBind_error] at h; cases h
    | ok lt =>
      rw [h2, exceptBind_ok] at h
      cases h3 : row.s.getItem "id" with
      | error e => rw [h3, exceptBind_error] at h; cases h
      | ok si =>
        rw [h3, exceptBind_ok] at h
        cases h4 : row.t.getItem "id" with
        | error e => rw [h4, exceptBind_error] at h; cases h
        | ok ti =>
          rw [h4, exceptBind_ok] at h
          cases h
          constructor
          · simp [Network.add_edge, add_node_edges, edgeOf]
          · simp [Network.add_edge, add_node_ids]

theorem showGraphLoop_spec (rows : List Row) (net net2 : Network)
    (h : showGraphLoop net rows = .ok net2) :
    net2.edges = net.edges ++ rows.map edgeOf ∧
    net2.nodes.map (fun v => v.id)
      = (rows.flatMap rowIds).foldl insertSeen
          (net.nodes.map (fun v => v.id)) := by
  induction rows generalizing net with
  | nil =>
    cases h
    simp
  | cons row rest ih =>
    unfold showGraphLoop at h
    cases hp : processRow net row with
    | error e => rw [hp] at h; cases h
    | ok mid =>
      rw [hp] at h
      obtain ⟨he1, hn1⟩ := processRow_ok_effects hp
      obtain ⟨he2, hn2⟩ := ih mid h
      constructor
      · rw [he2, he1]
        simp
      · rw [hn2, hn1]
        simp [rowIds]

theorem foldl_insertSeen_nodup (l : List Nat) : ∀ acc : List Nat,
    acc.Nodup → (l.foldl insertSeen acc).Nodup := by
  induction l with
  | nil => intro acc h; exact h
  | cons x xs ih =>
    intro acc h
    rw [List.foldl_cons]
    apply ih
    unfold insertSeen
    by_cases hc : acc.any (fun y => y == x)
    · rw [if_pos hc]; exact h
    · rw [if_neg hc]
      have hx : x ∉ acc := by
        intro hmem
        exact hc (List.any_eq_true.mpr ⟨x, hmem, by simp⟩)
      simp [List.nodup_append, h, hx]

/-- Claim C7: a successful `showGraph` run yields exactly one directed edge
per result row, in row order, labeled with the relationship type; and its
node list holds each distinct node identity exactly once, deduplicated in
first-seen order. -/
theorem c7_viewer_dedup_nodes_edge_per_row (rows : List Row) (net : Network)
    (h : showGraph rows = .ok net) :
    net.edges = rows.map edgeOf ∧
    net.nodes.map (fun v => v.id) = firstSeen (rows.flatMap rowIds) ∧
    (net.nodes.map (fun v => v.id)).Nodup := by
  obtain ⟨he, hn⟩ := showGraphLoop_spec rows _ net h
  refine ⟨by simpa using he, by simpa [firstSeen] using hn, ?_⟩
  rw [hn]
  exact foldl_insertSeen_nodup _ _ (by simp)

/-- A second row repeating the Alice node, to exercise deduplication. -/
def bobRow : Row :=
  { s := ⟨1, [("id", "1"), ("name", "Alice")]⟩
    t := ⟨3, [("id", "3"), ("name", "Bob")]⟩
    relType := "KNOWS" }

/-- The network `showGraph` builds from the two demo rows: Alice appears in
both rows but is stored once. -/
def demoNet : Network :=
  { nodes := [⟨1, "Alice", "1"⟩, ⟨2, "Acme", "2"⟩, ⟨3, "Bob", "3"⟩]
    edges := [⟨1, 2, "WORKS_AT", "WORKS_AT"⟩, ⟨1, 3, "KNOWS", "KNOWS"⟩] }

theorem c7_witness :
    demoNet.edges = [aliceAcmeRow, bobRow].map edgeOf ∧
    demoNet.nodes.map (fun v => v.id)
      = firstSeen ([aliceAcmeRow, bobRow].flatMap rowIds) ∧
    (demoNet.nodes.map (fun v => v.id)).Nodup :=
  c7_viewer_dedup_nodes_edge_per_row [aliceAcmeRow, bobRow] demoNet (by decide)

end KG
